import Mathlib

/-!
Shallow embedding of the `spring_shadow` notation-to-waveform pipeline
(`player.py`: `MusicNote.parse`, `MusicPlayer.generate_tone`, `play_note`;
`save.py`: `rcp_to_wav`).

Modelling conventions:
* Python floats are modelled as real numbers (`ℝ`); integers exactly.
* Python strings are modelled as `List Char` so that all string operations of
  the source (`split('.')`, `startswith`, `replace(':','.')`, `float(...)`)
  are computable Lean functions.
* Code that raises is modelled with `Except` (for the parser, whose three
  `ValueError` sites correspond to the spec's `FormatError` / `InvalidDegree`
  / `InvalidDuration` taxonomy) and with `Option` (for `generate_tone`, whose
  numpy calls raise on two degenerate argument combinations, see below).
-/

namespace SpringShadow

/-- Error taxonomy of §7 of the spec, mapped onto the three `raise ValueError`
sites of `MusicNote.parse` (player.py lines 29, 35, 60; a failing
`float(beat_denom_str)` on line 58 is `InvalidDuration`). -/
inductive Err where
  | FormatError
  | InvalidDegree
  | InvalidDuration
deriving DecidableEq, Repr

/-- player.py lines 7-10: the class attribute `NOTE_TO_SEMITONE`, a dict from
one-character strings to semitone offsets; `'0'` maps to the sentinel `-240`.
Keys not present give `none`. -/
def NOTE_TO_SEMITONE : List Char → Option ℤ
  | ['1'] => some 0
  | ['2'] => some 2
  | ['3'] => some 4
  | ['4'] => some 5
  | ['5'] => some 7
  | ['6'] => some 9
  | ['7'] => some 11
  | ['0'] => some (-240)
  | _ => none

/-- Python `str.split('.')`: splits at every `'.'`, keeping empty parts
(`"1..".split('.') == ['1', '', '']`, `"".split('.') == ['']`). -/
def splitOnDot : List Char → List (List Char)
  | [] => [[]]
  | c :: cs =>
    if c = '.' then [] :: splitOnDot cs
    else
      match splitOnDot cs with
      | [] => [[c]]
      | p :: ps => (c :: p) :: ps

/-- Python `str.replace(':', '.')` on a one-character pattern. -/
def colonToDot (cs : List Char) : List Char :=
  cs.map (fun c => if c = ':' then '.' else c)

/-- Value of a digit string, most significant first. -/
def digitsVal (cs : List Char) : ℕ :=
  cs.foldl (fun n c => 10 * n + (c.toNat - 48)) 0

/-- Modelled subset of Python `float(...)`: an optional sign followed by
digits with at most one decimal point and at least one digit
(`"4"`, `"-4"`, `"0.5"`, `".5"`, `"5."`).  Python's `float` also accepts
exponents, `inf`/`nan`, underscores and surrounding whitespace; no token the
notation grammar produces uses those forms, and they are modelled as parse
failures.  Returns `none` exactly when Python raises `ValueError`. -/
def parseFloat (cs : List Char) : Option ℚ :=
  let signBody : ℚ × List Char :=
    match cs with
    | '-' :: rest => (-1, rest)
    | '+' :: rest => (1, rest)
    | _ => (1, cs)
  match splitOnDot signBody.2 with
  | [ip] =>
    if ip ≠ [] ∧ ip.all Char.isDigit then some (signBody.1 * digitsVal ip) else none
  | [ip, fp] =>
    if (ip ≠ [] ∨ fp ≠ []) ∧ ip.all Char.isDigit ∧ fp.all Char.isDigit then
      some (signBody.1 * ((digitsVal ip : ℚ) + (digitsVal fp : ℚ) / 10 ^ fp.length))
    else none
  | _ => none

/-- The semantic triple recovered from one notation token: the degree symbol
(the part before the `'.'`), the octave offset and the beat denominator. -/
structure RawNote where
  sym : List Char
  octave_offset : ℤ
  beat_denom : ℚ
deriving DecidableEq, Repr

/-- player.py lines 38-52: strip the optional leading octave marker from the
suffix: `'0'` keeps octave 0, `'-'` is one octave down, `'+'` one octave up;
with no marker the whole suffix is the denominator text. -/
def stripMarker : List Char → ℤ × List Char
  | '0' :: rest => (0, rest)
  | '-' :: rest => (-1, rest)
  | '+' :: rest => (1, rest)
  | suffix => (0, suffix)

/-- player.py lines 21-60, the string-processing part of `MusicNote.parse`:
split on `'.'` (exactly two parts, else line 29's error), look the symbol up
in `NOTE_TO_SEMITONE` (else line 35's error), strip an optional leading
octave marker from the suffix, turn `':'` into `'.'`, and parse the rest as
the beat denominator, which must be positive (lines 58-60). -/
def parseCore (note_str : List Char) : Except Err RawNote :=
  match splitOnDot note_str with
  | [note_symbol, suffix] =>
    match NOTE_TO_SEMITONE note_symbol with
    | none => .error .InvalidDegree
    | some _ =>
      match parseFloat (colonToDot (stripMarker suffix).2) with
      | none => .error .InvalidDuration
      | some beat_denom =>
        if beat_denom ≤ 0 then .error .InvalidDuration
        else .ok ⟨note_symbol, (stripMarker suffix).1, beat_denom⟩
  | _ => .error .FormatError

/-- player.py line 64: `freq = self.base_freq * (2 ** (semitone_shift / 12))`
(real powers model Python float exponentiation). -/
noncomputable def resolveFreq (base_freq : ℝ) (semitone_shift : ℤ) : ℝ :=
  base_freq * (2 : ℝ) ^ ((semitone_shift : ℝ) / 12)

/-- Semitone table value of a degree symbol (defaults to `0` for symbols not
in the table; `parseCore` only succeeds on symbols that are in it). -/
def semitoneOf (sym : List Char) : ℤ :=
  (NOTE_TO_SEMITONE sym).getD 0

/-- player.py lines 12-19: the tuning state held by a `MusicNote` object. -/
structure MusicNote where
  base_freq : ℝ
  base_beat_duration : ℝ

/-- player.py lines 21-69, `MusicNote.parse`: the string processing of
`parseCore` followed by the pitch/duration resolution of lines 62-67:
`semitone_shift = octave_offset * 12 + NOTE_TO_SEMITONE[note_symbol]`,
`freq = base_freq * 2 ** (semitone_shift / 12)`,
`duration = base_beat_duration * (4 / beat_denom)`. -/
noncomputable def MusicNote.parse (m : MusicNote) (note_str : List Char) :
    Except Err (ℝ × ℝ) :=
  (parseCore note_str).map (fun r =>
    (resolveFreq m.base_freq (r.octave_offset * 12 + semitoneOf r.sym),
     m.base_beat_duration * (4 / (r.beat_denom : ℝ))))

/-- `MusicNote.parse` as an explicit state transformer on the receiver: the
method body (player.py lines 21-69) contains no assignment to `self.base_freq`
or `self.base_beat_duration` — it only reads them on lines 64 and 67 — so the
embedding threads the receiver through unchanged alongside the result. -/
noncomputable def MusicNote.parseSt (m : MusicNote) (note_str : List Char) :
    Except Err (ℝ × ℝ) × MusicNote :=
  (m.parse note_str, m)

/-! ## Harmonic tone synthesizer (player.py lines 126-151)

`MusicPlayer.generate_tone(self, frequency, duration)` reads
`self.sample_rate` and `self.harmonic_amplitudes`; the embedding passes those
receiver fields explicitly.  The final `astype(np.float32)` narrowing is not
modelled (samples stay in `ℝ`). -/

/-- player.py lines 143-144: `fade_ms = 50`;
`fade_samples = int(self.sample_rate * fade_ms / 1000)` — Python `int()` of a
nonnegative quotient is floor division. -/
def fadeSamplesOf (sample_rate : ℕ) : ℕ :=
  sample_rate * 50 / 1000

/-- `np.linspace(a, b, n)` (endpoint included): entry `i` is
`a + (b - a) * i / (n - 1)`.  For `n = 1` numpy returns `[a]`, and the formula
agrees because `x / 0 = 0` in Lean; for `n = 0` it returns `[]`. -/
noncomputable def linspace (a b : ℝ) (n : ℕ) : List ℝ :=
  (List.range n).map (fun i : ℕ => a + (b - a) * (i : ℝ) / ((n : ℝ) - 1))

/-- player.py line 128: the buffer length
`int(self.sample_rate * duration)` — truncation of a nonnegative product,
i.e. the floor. -/
noncomputable def sampleCount (sample_rate : ℕ) (duration : ℝ) : ℕ :=
  ⌊(sample_rate : ℝ) * duration⌋₊

/-- player.py lines 131-136: the value accumulated at time `t`:
`sum over enumerate(harmonic_amplitudes) of amplitude * sin(2π * (frequency * (i+1)) * t)`. -/
noncomputable def harmSum (harmonic_amplitudes : List ℝ) (frequency t : ℝ) : ℝ :=
  (harmonic_amplitudes.enum.map
    (fun p => p.2 * Real.sin (2 * Real.pi * (frequency * ((p.1 : ℝ) + 1)) * t))).sum

/-- player.py lines 128-136: the accumulated composite waveform sampled on
`t = np.linspace(0, duration, N, endpoint=False)`, whose entry `n` is
`n * duration / N`. -/
noncomputable def rawTone (sample_rate : ℕ) (harmonic_amplitudes : List ℝ)
    (frequency duration : ℝ) : List ℝ :=
  (List.range (sampleCount sample_rate duration)).map
    (fun n : ℕ => harmSum harmonic_amplitudes frequency
      ((n : ℝ) * duration / (sampleCount sample_rate duration : ℝ)))

/-- `np.max(np.abs(xs))` for a nonempty `xs` (all entries of `np.abs` are
nonnegative, so starting the fold at `0` is harmless). -/
noncomputable def peak (xs : List ℝ) : ℝ :=
  xs.foldl (fun m x => max m |x|) 0

/-- player.py lines 138-140: divide by the peak when it is positive, else
leave the buffer unchanged. -/
noncomputable def normalize (xs : List ℝ) : List ℝ :=
  if 0 < peak xs then xs.map (fun x => x / peak xs) else xs

/-- player.py line 147: `composite_tone[:fade_samples] *= np.linspace(0, 1, fade_samples)`. -/
noncomputable def fadeIn (fs : ℕ) (xs : List ℝ) : List ℝ :=
  (List.zipWith (· * ·) (xs.take fs) (linspace 0 1 fs)) ++ xs.drop fs

/-- player.py line 149: `composite_tone[-fade_samples:] *= np.linspace(1, 0, fade_samples)`. -/
noncomputable def fadeOut (fs : ℕ) (xs : List ℝ) : List ℝ :=
  xs.take (xs.length - fs) ++
    List.zipWith (· * ·) (xs.drop (xs.length - fs)) (linspace 1 0 fs)

/-- player.py lines 126-151, `MusicPlayer.generate_tone`: accumulate, peak
normalize, then fade in/out when `fade_samples < len(composite_tone)`.
Two argument combinations make the source raise, modelled as `none`:
an empty buffer (`np.max` of an empty array raises on line 139), and
`fade_samples = 0` with a nonempty buffer (line 149 then multiplies the whole
array `composite_tone[-0:]` by an empty ramp, a broadcast error). -/
noncomputable def generate_tone (sample_rate : ℕ) (harmonic_amplitudes : List ℝ)
    (frequency duration : ℝ) : Option (List ℝ) :=
  if (rawTone sample_rate harmonic_amplitudes frequency duration).length = 0 then none
  else if fadeSamplesOf sample_rate = 0 then none
  else if fadeSamplesOf sample_rate <
      (normalize (rawTone sample_rate harmonic_amplitudes frequency duration)).length then
    some (fadeOut (fadeSamplesOf sample_rate)
      (fadeIn (fadeSamplesOf sample_rate)
        (normalize (rawTone sample_rate harmonic_amplitudes frequency duration))))
  else some (normalize (rawTone sample_rate harmonic_amplitudes frequency duration))

/-- player.py line 163 in `play_note`: the separating silence written to the
live stream after each tone is `np.zeros(int(self.sample_rate * 0.05))`
samples long. -/
noncomputable def playNoteSilenceLen (sample_rate : ℕ) : ℕ :=
  ⌊(sample_rate : ℝ) * (5 / 100)⌋₊

/-! ## Audio file sink (save.py lines 9-52, `rcp_to_wav`) -/

/-- save.py line 44: `(tone * 32767).astype(np.int16)` — a C cast, which
truncates toward zero.  Every sample a normalized, fade-shaped tone produces
lies in `[-1, 1]`, where the scaled value lies in `[-32767, 32767]` and the
cast is exactly truncation (no clamping, and the out-of-range wraparound of
the cast is never exercised). -/
noncomputable def pcmOfSample (x : ℝ) : ℤ :=
  if 0 ≤ x then ⌊x * 32767⌋ else ⌈x * 32767⌉

/-- Modelled from the spec (§4.3 output conversion rule, which no code under
src/ implements): `pcm = round(sample * 32767)`, clamped to the signed 16-bit
range.  Stated only to compare against `pcmOfSample`, the conversion the file
sink actually performs. -/
noncomputable def pcmSpecOfSample (x : ℝ) : ℤ :=
  max (-32768) (min 32767 (round (x * 32767)))

/-- save.py lines 34-45: for each token of the score body, parse it with the
`MusicNote` built from the header parameters, synthesize it with the player's
`generate_tone`, and append the 16-bit conversion of the tone to the payload.
No inter-note silence is appended in this path.  `none` models the source
raising (a parse `ValueError` or a `generate_tone` error). -/
noncomputable def rcpTones (base_freq base_beat_duration : ℝ) (sample_rate : ℕ)
    (harmonic_amplitudes : List ℝ) : List (List Char) → Option (List (List ℝ))
  | [] => some []
  | t :: ts =>
    ((MusicNote.parse ⟨base_freq, base_beat_duration⟩ t).toOption).bind fun fd =>
      (generate_tone sample_rate harmonic_amplitudes fd.1 fd.2).bind fun tone =>
        (rcpTones base_freq base_beat_duration sample_rate harmonic_amplitudes ts).map
          fun rest => tone :: rest

/-- The complete sample payload written through `wav_file.writeframes`:
the in-order concatenation of the converted tone buffers. -/
noncomputable def rcp_to_wav_payload (base_freq base_beat_duration : ℝ)
    (sample_rate : ℕ) (harmonic_amplitudes : List ℝ)
    (tokens : List (List Char)) : Option (List ℤ) :=
  (rcpTones base_freq base_beat_duration sample_rate harmonic_amplitudes tokens).map
    (fun ts => (ts.map (fun tone => tone.map pcmOfSample)).flatten)

/-! ## Helper lemmas -/

lemma foldl_max_abs_ge_init (xs : List ℝ) (a : ℝ) :
    a ≤ xs.foldl (fun m x => max m |x|) a := by
  induction xs generalizing a with
  | nil => simp
  | cons y ys ih => exact le_trans (le_max_left a |y|) (ih (max a |y|))

lemma abs_le_foldl_max_abs {xs : List ℝ} {x : ℝ} (hx : x ∈ xs) (a : ℝ) :
    |x| ≤ xs.foldl (fun m x => max m |x|) a := by
  induction xs generalizing a with
  | nil => cases hx
  | cons y ys ih =>
    rcases List.mem_cons.mp hx with h | h
    · subst h
      exact le_trans (le_max_right a |x|) (foldl_max_abs_ge_init ys (max a |x|))
    · exact ih h (max a |y|)

lemma abs_le_peak {xs : List ℝ} {x : ℝ} (hx : x ∈ xs) : |x| ≤ peak xs :=
  abs_le_foldl_max_abs hx 0

lemma peak_nonneg (xs : List ℝ) : 0 ≤ peak xs :=
  foldl_max_abs_ge_init xs 0

lemma foldl_max_abs_map_div (xs : List ℝ) {p : ℝ} (hp : 0 < p) (a : ℝ) :
    (xs.map (fun x => x / p)).foldl (fun m x => max m |x|) (a / p) =
      (xs.foldl (fun m x => max m |x|) a) / p := by
  induction xs generalizing a with
  | nil => simp
  | cons y ys ih =>
    simp only [List.map_cons, List.foldl_cons]
    rw [abs_div, abs_of_pos hp, max_div_div_right hp.le, ih]

lemma peak_map_div (xs : List ℝ) {p : ℝ} (hp : 0 < p) :
    peak (xs.map (fun x => x / p)) = peak xs / p := by
  have h := foldl_max_abs_map_div xs hp 0
  rw [zero_div] at h
  exact h

lemma peak_of_all_zero {xs : List ℝ} (h : ∀ x ∈ xs, x = 0) : peak xs = 0 := by
  unfold peak
  induction xs with
  | nil => rfl
  | cons y ys ih =>
    have hy : y = 0 := h y (List.mem_cons_self y ys)
    simp only [List.foldl_cons, hy, abs_zero, max_self, max_eq_left (le_refl (0:ℝ))]
    exact ih (fun x hx => h x (List.mem_cons_of_mem y hx))

/-! ## C4: parser error classification -/

/-- C4 (counterexample): the claim says `parse("1..")` fails with
`InvalidDuration`, but `"1..".split('.')` has three parts, so the length
check on player.py line 28 fires first and the failure is the format error
of line 29, not a duration error. -/
theorem parse_err_cx :
    parseCore ['1', '.', '.'] = .error .FormatError ∧
      Err.FormatError ≠ Err.InvalidDuration := by
  exact ⟨rfl, by decide⟩

/-- C4 (amended): `parse("8.04")` fails with `InvalidDegree`, `parse("1-04")`
fails with `FormatError`, `parse("1.-")` fails with `InvalidDuration`, and
`parse("1..")` fails with `FormatError` (not `InvalidDuration`), because the
token splits on both dots into three parts. -/
theorem parse_err_classification :
    parseCore ['8', '.', '0', '4'] = .error .InvalidDegree ∧
      parseCore ['1', '-', '0', '4'] = .error .FormatError ∧
      parseCore ['1', '.', '.'] = .error .FormatError ∧
      parseCore ['1', '.', '-'] = .error .InvalidDuration := by
  exact ⟨rfl, rfl, rfl, rfl⟩

/-! ## C10: parsing does not mutate the tuning state -/

/-- C10: `MusicNote.parse` never mutates the tuning state: for every input,
the receiver after the call equals the receiver before it, and the result is
the pure function of the `base_freq` and `base_beat_duration` fields read at
call time. -/
theorem parse_frame (m : MusicNote) (s : List Char) :
    (m.parseSt s).2 = m ∧
      (m.parseSt s).1 = MusicNote.parse ⟨m.base_freq, m.base_beat_duration⟩ s := by
  exact ⟨rfl, rfl⟩

/-! ## C8: peak normalization -/

/-- C8: after the accumulation step and before fade shaping, if the maximum
absolute sample of the buffer is positive then `normalize` (player.py lines
138-140, the step `generate_tone` applies between accumulation and fading)
divides every sample by that peak, making the peak magnitude exactly 1; an
all-zero buffer is left unchanged. -/
theorem normalization_peak (xs : List ℝ) :
    (0 < peak xs → peak (normalize xs) = 1) ∧
      ((∀ x ∈ xs, x = 0) → normalize xs = xs) := by
  constructor
  · intro hp
    unfold normalize
    rw [if_pos hp, peak_map_div xs hp, div_self (ne_of_gt hp)]
  · intro hz
    unfold normalize
    rw [peak_of_all_zero hz]
    simp

/-- C8 (witness): a concrete nonzero buffer is rescaled to peak exactly 1. -/
theorem normalization_peak_witness :
    (0 : ℝ) < peak [1 / 2, 0] ∧ peak (normalize [1 / 2, 0]) = 1 := by
  have hp : (0 : ℝ) < peak [1 / 2, 0] := by
    unfold peak
    simp only [List.foldl_cons, List.foldl_nil]
    rw [abs_zero, abs_of_pos (by norm_num : (0:ℝ) < 1 / 2)]
    norm_num
  exact ⟨hp, (normalization_peak [1 / 2, 0]).1 hp⟩

/-! ## Inversion facts about `parseCore` -/

lemma NOTE_TO_SEMITONE_cases (sym : List Char) (v : ℤ)
    (h : NOTE_TO_SEMITONE sym = some v) :
    (sym = ['0'] ∧ v = -240) ∨ v ∈ ({0, 2, 4, 5, 7, 9, 11} : Set ℤ) := by
  unfold NOTE_TO_SEMITONE at h
  split at h <;> simp_all

lemma parseCore_ok_inv {s : List Char} {r : RawNote}
    (h : parseCore s = .ok r) :
    (NOTE_TO_SEMITONE r.sym).isSome ∧ 0 < r.beat_denom := by
  unfold parseCore at h
  split at h
  · split at h
    · cases h
    · rename_i v hv
      split at h
      · cases h
      · split at h
        · cases h
        · rename_i hpos
          cases h
          exact ⟨by simp [hv], lt_of_not_le hpos⟩
  · cases h

lemma parse_of_parseCore_ok (m : MusicNote) {s : List Char} {r : RawNote}
    (h : parseCore s = .ok r) :
    m.parse s = .ok
      (resolveFreq m.base_freq (r.octave_offset * 12 + semitoneOf r.sym),
       m.base_beat_duration * (4 / (r.beat_denom : ℝ))) := by
  unfold MusicNote.parse
  rw [h]
  rfl

/-! ## C6: resolver formula -/

/-- C6: for every successfully parsed token whose degree is not `'0'` (hence
is one of 1..7), the resolver returns
`frequencyHz = base_freq * 2 ^ ((octave_offset * 12 + SEMITONE_TABLE[degree]) / 12)`
and `durationSeconds = base_beat_duration * (4 / beat_denom)`, with a
positive denominator and a table value among the major-scale offsets
{0, 2, 4, 5, 7, 9, 11}. -/
theorem resolver_formula (m : MusicNote) (s : List Char) (r : RawNote)
    (hok : parseCore s = .ok r) (hdeg : r.sym ≠ ['0']) :
    0 < r.beat_denom ∧
      semitoneOf r.sym ∈ ({0, 2, 4, 5, 7, 9, 11} : Set ℤ) ∧
      m.parse s = .ok
        (m.base_freq * (2 : ℝ) ^ (((r.octave_offset * 12 + semitoneOf r.sym : ℤ) : ℝ) / 12),
         m.base_beat_duration * (4 / (r.beat_denom : ℝ))) := by
  obtain ⟨hsome, hpos⟩ := parseCore_ok_inv hok
  obtain ⟨v, hv⟩ := Option.isSome_iff_exists.mp hsome
  have hsem : semitoneOf r.sym = v := by simp [semitoneOf, hv]
  refine ⟨hpos, ?_, ?_⟩
  · rcases NOTE_TO_SEMITONE_cases r.sym v hv with ⟨h0, _⟩ | hmem
    · exact absurd h0 hdeg
    · rw [hsem]; exact hmem
  · exact parse_of_parseCore_ok m hok

/-- C6 (witness): parsing `"1.04"` with base frequency 440 and beat 1
instantiates the resolver formula: degree 1, octave offset 0, denominator 4. -/
theorem resolver_formula_witness :
    parseCore ['1', '.', '0', '4'] = .ok ⟨['1'], 0, 4⟩ ∧
      (⟨['1'], 0, 4⟩ : RawNote).sym ≠ ['0'] ∧
      (0 : ℚ) < (⟨['1'], 0, 4⟩ : RawNote).beat_denom ∧
      semitoneOf (⟨['1'], 0, 4⟩ : RawNote).sym ∈ ({0, 2, 4, 5, 7, 9, 11} : Set ℤ) ∧
      MusicNote.parse ⟨440, 1⟩ ['1', '.', '0', '4'] = .ok
        (440 * (2 : ℝ) ^ ((((0 : ℤ) * 12 + semitoneOf ['1'] : ℤ) : ℝ) / 12),
         1 * (4 / ((4 : ℚ) : ℝ))) := by
  have hok : parseCore ['1', '.', '0', '4'] = .ok ⟨['1'], 0, 4⟩ := by
    simp [parseCore, parseFloat, splitOnDot, colonToDot, stripMarker, digitsVal, NOTE_TO_SEMITONE]
  have h := resolver_formula ⟨440, 1⟩ ['1', '.', '0', '4'] ⟨['1'], 0, 4⟩ hok (by decide)
  exact ⟨hok, by decide, h.1, h.2.1, h.2.2⟩

/-! ## C7: octave doubling -/

/-- C7: for every valid (non-rest) degree, resolving with octave offset `+1`
yields exactly twice the frequency of resolving with octave offset `0` (the
embedding computes over `ℝ`, so the equality is exact, which implies the
claim's 1e-9 relative tolerance); resolution is deterministic because
`MusicNote.parse` is a pure function of its arguments. -/
theorem octave_doubling (base : ℝ) (sym : List Char)
    (_hvalid : (NOTE_TO_SEMITONE sym).isSome) (_hdeg : sym ≠ ['0']) :
    resolveFreq base (1 * 12 + semitoneOf sym) =
      2 * resolveFreq base (0 * 12 + semitoneOf sym) := by
  unfold resolveFreq
  have he : ((1 * 12 + semitoneOf sym : ℤ) : ℝ) / 12 =
      1 + ((0 * 12 + semitoneOf sym : ℤ) : ℝ) / 12 := by
    push_cast
    ring
  rw [he, Real.rpow_add (by norm_num : (0:ℝ) < 2), Real.rpow_one]
  ring

/-- C7 (witness): degree 5 at the default base frequency doubles across one
octave. -/
theorem octave_doubling_witness :
    (NOTE_TO_SEMITONE ['5']).isSome = true ∧
      resolveFreq (26163 / 100) (1 * 12 + semitoneOf ['5']) =
        2 * resolveFreq (26163 / 100) (0 * 12 + semitoneOf ['5']) :=
  ⟨rfl, octave_doubling (26163 / 100) ['5'] (by decide) (by decide)⟩

/-! ## C1 (amended part): the rest degree is not special-cased -/

/-- C1 (amended): the Resolver does not special-case degree `'0'`: a token
whose degree symbol is `'0'` resolves, through the sentinel entry
`NOTE_TO_SEMITONE['0'] = -240`, to the frequency
`base_freq * 2 ^ ((octave_offset * 12 - 240) / 12)` and the usual duration —
the additive synthesis path then runs on that extreme-low frequency. -/
theorem rest_uses_sentinel (m : MusicNote) (s : List Char) (r : RawNote)
    (hok : parseCore s = .ok r) (h0 : r.sym = ['0']) :
    m.parse s = .ok
      (resolveFreq m.base_freq (r.octave_offset * 12 - 240),
       m.base_beat_duration * (4 / (r.beat_denom : ℝ))) := by
  have h := parse_of_parseCore_ok m hok
  rw [h0] at h
  have hsem : semitoneOf ['0'] = -240 := rfl
  rw [hsem] at h
  rw [show r.octave_offset * 12 + -240 = r.octave_offset * 12 - 240 by ring] at h
  exact h

/-- C1 (amended, witness): `"0.01"` at the default tuning resolves to the
sentinel-derived frequency `261.63 * 2 ^ (-240/12)` and duration 2 s. -/
theorem rest_uses_sentinel_witness :
    parseCore ['0', '.', '0', '1'] = .ok ⟨['0'], 0, 1⟩ ∧
      MusicNote.parse ⟨26163 / 100, 1 / 2⟩ ['0', '.', '0', '1'] = .ok
        (resolveFreq (26163 / 100) ((0 : ℤ) * 12 - 240),
         (1 / 2) * (4 / ((1 : ℚ) : ℝ))) := by
  have hok : parseCore ['0', '.', '0', '1'] = .ok ⟨['0'], 0, 1⟩ := by
    simp [parseCore, parseFloat, splitOnDot, colonToDot, stripMarker, digitsVal, NOTE_TO_SEMITONE]
  exact ⟨hok,
    rest_uses_sentinel ⟨26163 / 100, 1 / 2⟩ ['0', '.', '0', '1'] ⟨['0'], 0, 1⟩ hok rfl⟩

/-! ## Length and access lemmas for the synthesizer -/

lemma length_linspace (a b : ℝ) (n : ℕ) : (linspace a b n).length = n := by
  unfold linspace
  rw [List.length_map, List.length_range]

lemma getElem_linspace (a b : ℝ) (n i : ℕ) (h : i < (linspace a b n).length) :
    (linspace a b n)[i] = a + (b - a) * (i : ℝ) / ((n : ℝ) - 1) := by
  unfold linspace
  simp only [List.getElem_map, List.getElem_range]

lemma length_fadeIn (fs : ℕ) (xs : List ℝ) : (fadeIn fs xs).length = xs.length := by
  unfold fadeIn
  rw [List.length_append, List.length_zipWith, length_linspace, List.length_take,
    List.length_drop]
  omega

lemma length_fadeOut (fs : ℕ) (xs : List ℝ) : (fadeOut fs xs).length = xs.length := by
  unfold fadeOut
  rw [List.length_append, List.length_zipWith, length_linspace, List.length_take,
    List.length_drop]
  omega

lemma length_normalize (xs : List ℝ) : (normalize xs).length = xs.length := by
  unfold normalize
  split
  · rw [List.length_map]
  · rfl

lemma length_rawTone (sample_rate : ℕ) (amps : List ℝ) (f d : ℝ) :
    (rawTone sample_rate amps f d).length = sampleCount sample_rate d := by
  unfold rawTone
  rw [List.length_map, List.length_range]

lemma getD_rawTone (sample_rate : ℕ) (amps : List ℝ) (f d : ℝ) (i : ℕ)
    (hi : i < sampleCount sample_rate d) :
    (rawTone sample_rate amps f d).getD i 0 =
      harmSum amps f ((i : ℝ) * d / (sampleCount sample_rate d : ℝ)) := by
  have hL : i < (rawTone sample_rate amps f d).length := by
    rw [length_rawTone]; exact hi
  rw [List.getD_eq_getElem _ _ hL]
  unfold rawTone
  simp only [List.getElem_map, List.getElem_range]

lemma getD_normalize_pos {xs : List ℝ} (hp : 0 < peak xs) {i : ℕ}
    (hi : i < xs.length) :
    (normalize xs).getD i 0 = xs.getD i 0 / peak xs := by
  have hL : i < (normalize xs).length := by rw [length_normalize]; exact hi
  rw [List.getD_eq_getElem _ _ hL, List.getD_eq_getElem _ _ hi]
  unfold normalize
  simp only [if_pos hp, List.getElem_map]

lemma getD_fadeIn_of_le (fs i : ℕ) (xs : List ℝ) (hfs : fs ≤ i)
    (hi : i < xs.length) :
    (fadeIn fs xs).getD i 0 = xs.getD i 0 := by
  have hL : i < (fadeIn fs xs).length := by rw [length_fadeIn]; exact hi
  rw [List.getD_eq_getElem _ _ hL, List.getD_eq_getElem _ _ hi]
  unfold fadeIn
  have hzlen : (List.zipWith (· * ·) (xs.take fs) (linspace 0 1 fs)).length = fs := by
    rw [List.length_zipWith, length_linspace, List.length_take]
    omega
  rw [List.getElem_append_right (by omega)]
  rw [List.getElem_drop]
  congr 1
  omega

lemma getD_fadeOut_of_lt (fs i : ℕ) (xs : List ℝ) (hfs : i < xs.length - fs) :
    (fadeOut fs xs).getD i 0 = xs.getD i 0 := by
  have hi : i < xs.length := by omega
  have hL : i < (fadeOut fs xs).length := by rw [length_fadeOut]; exact hi
  rw [List.getD_eq_getElem _ _ hL, List.getD_eq_getElem _ _ hi]
  unfold fadeOut
  have htlen : (xs.take (xs.length - fs)).length = xs.length - fs := by
    rw [List.length_take]; omega
  rw [List.getElem_append_left (by omega)]
  rw [List.getElem_take]

/-! ## Shape of `generate_tone` results -/

lemma generate_tone_eq_some_fade {sample_rate : ℕ} {amps : List ℝ} {f d : ℝ}
    (hfs : fadeSamplesOf sample_rate ≠ 0)
    (hlt : fadeSamplesOf sample_rate < sampleCount sample_rate d) :
    generate_tone sample_rate amps f d =
      some (fadeOut (fadeSamplesOf sample_rate)
        (fadeIn (fadeSamplesOf sample_rate) (normalize (rawTone sample_rate amps f d)))) := by
  unfold generate_tone
  rw [if_neg (by rw [length_rawTone]; omega), if_neg hfs,
    if_pos (by rw [length_normalize, length_rawTone]; exact hlt)]

lemma generate_tone_some_length {sample_rate : ℕ} {amps : List ℝ} {f d : ℝ}
    {b : List ℝ} (h : generate_tone sample_rate amps f d = some b) :
    b.length = sampleCount sample_rate d := by
  unfold generate_tone at h
  split at h
  · cases h
  · split at h
    · cases h
    · split at h
      · cases h
        rw [length_fadeOut, length_fadeIn, length_normalize, length_rawTone]
      · cases h
        rw [length_normalize, length_rawTone]

/-! ## C3: sample count of a synthesized buffer -/

lemma peak_replicate_zero (n : ℕ) : peak (List.replicate n (0 : ℝ)) = 0 :=
  peak_of_all_zero (fun _ hx => List.eq_of_mem_replicate hx)

lemma normalize_replicate_zero (n : ℕ) :
    normalize (List.replicate n (0 : ℝ)) = List.replicate n 0 := by
  unfold normalize
  rw [peak_replicate_zero]
  simp

lemma linspace_singleton (a b : ℝ) : linspace a b 1 = [a] := by
  unfold linspace
  rw [show List.range 1 = [0] from rfl, List.map_cons, List.map_nil]
  norm_num

lemma harmSum_freq_zero (amps : List ℝ) (t : ℝ) : harmSum amps 0 t = 0 := by
  unfold harmSum
  apply List.sum_eq_zero
  intro x hx
  rcases List.mem_map.mp hx with ⟨p, _, hp⟩
  rw [← hp]
  norm_num

lemma rawTone_freq_zero (sample_rate : ℕ) (amps : List ℝ) (d : ℝ) :
    rawTone sample_rate amps 0 d = List.replicate (sampleCount sample_rate d) 0 := by
  unfold rawTone
  rw [show (fun n : ℕ => harmSum amps 0
        ((n : ℝ) * d / (sampleCount sample_rate d : ℝ))) = (fun _ : ℕ => (0 : ℝ))
      from funext fun n => harmSum_freq_zero amps _]
  rw [List.map_const', List.length_range]

lemma zipWith_mul_replicate_zero (n : ℕ) (ys : List ℝ) :
    List.zipWith (· * ·) (List.replicate n (0 : ℝ)) ys =
      List.replicate (min n ys.length) 0 := by
  induction n generalizing ys with
  | zero => simp
  | succ m ih =>
    cases ys with
    | nil => simp
    | cons y ys =>
      rw [List.replicate_succ, List.zipWith_cons_cons, ih, zero_mul,
        List.length_cons, Nat.succ_min_succ, List.replicate_succ]

lemma fadeIn_replicate_zero (fs n : ℕ) :
    fadeIn fs (List.replicate n (0 : ℝ)) = List.replicate n 0 := by
  unfold fadeIn
  rw [List.take_replicate, zipWith_mul_replicate_zero, List.drop_replicate,
    ← List.replicate_add]
  congr 1
  rw [length_linspace]
  omega

lemma fadeOut_replicate_zero (fs n : ℕ) :
    fadeOut fs (List.replicate n (0 : ℝ)) = List.replicate n 0 := by
  unfold fadeOut
  rw [List.length_replicate, List.take_replicate, List.drop_replicate,
    zipWith_mul_replicate_zero, ← List.replicate_add]
  congr 1
  rw [length_linspace]
  omega

/-- With frequency 0 every sine vanishes, so the synthesized buffer is the
all-zero buffer of `int(sample_rate * duration)` samples (the peak is 0, so
normalization leaves it alone, and the fades multiply zeros). -/
lemma generate_tone_freq_zero (sample_rate : ℕ) (amps : List ℝ) (d : ℝ)
    (h1 : sampleCount sample_rate d ≠ 0) (h2 : fadeSamplesOf sample_rate ≠ 0) :
    generate_tone sample_rate amps 0 d =
      some (List.replicate (sampleCount sample_rate d) 0) := by
  unfold generate_tone
  rw [rawTone_freq_zero, normalize_replicate_zero, List.length_replicate,
    if_neg h1, if_neg h2]
  split
  · rw [fadeIn_replicate_zero, fadeOut_replicate_zero]
  · rfl

/-- Concrete evaluation shared by the C3 statements: sample rate 30,
frequency 0 (every sine vanishes), duration 0.65 s, one harmonic; the
product `30 * 0.65 = 19.5` truncates to a 19-sample all-zero buffer. -/
lemma generate_tone_30_eval :
    generate_tone 30 [1] 0 (13 / 20) = some (List.replicate 19 0) := by
  have hN : sampleCount 30 (13 / 20) = 19 := by
    unfold sampleCount
    rw [show ((30 : ℕ) : ℝ) * (13 / 20) = 39 / 2 by norm_num]
    rw [Nat.floor_eq_iff (by norm_num)]
    norm_num
  have h := generate_tone_freq_zero 30 [1] (13 / 20) (by rw [hN]; omega) (by decide)
  rw [hN] at h
  exact h

/-- C3 (counterexample): the claim says the buffer has `round(sampleRate *
durationSeconds)` samples for every frequency, duration and sample rate, but
`int()` truncates: at sample rate 30 and duration 0.65 s the product is 19.5,
the code produces 19 samples (`int(19.5)`), while `round(19.5) = 20`. -/
theorem sample_count_cx :
    generate_tone 30 [1] 0 (13 / 20) = some (List.replicate 19 0) ∧
      ((List.replicate 19 (0 : ℝ)).length : ℤ) ≠ round ((30 : ℝ) * (13 / 20)) := by
  refine ⟨generate_tone_30_eval, ?_⟩
  rw [List.length_replicate]
  rw [show ((30 : ℝ) * (13 / 20)) = 39 / 2 by norm_num]
  rw [round_eq]
  norm_num

/-- C3 (amended): for every frequency, duration and sample rate on which
`generate_tone` completes, the buffer contains exactly
`floor(sampleRate * durationSeconds)` samples (Python `int()` truncates, it
does not round), and sample index `n` corresponds to time
`t = n * durationSeconds / sampleCount` — which coincides with `n /
sampleRate` exactly when `sampleRate * durationSeconds` is an integer. -/
theorem sample_count_floor (sample_rate : ℕ) (amps : List ℝ) (f d : ℝ)
    (b : List ℝ) (h : generate_tone sample_rate amps f d = some b) :
    b.length = ⌊(sample_rate : ℝ) * d⌋₊ :=
  generate_tone_some_length h

/-- C3 (amended, witness): the 19-sample buffer of the counterexample input
has exactly `floor(30 * 0.65) = 19` samples. -/
theorem sample_count_floor_witness :
    generate_tone 30 [1] 0 (13 / 20) = some (List.replicate 19 0) ∧
      (List.replicate 19 (0 : ℝ)).length = ⌊(30 : ℝ) * (13 / 20)⌋₊ :=
  ⟨generate_tone_30_eval,
    sample_count_floor 30 [1] 0 (13 / 20) (List.replicate 19 0) generate_tone_30_eval⟩

/-! ## C9: fade shaping -/

lemma fadeIn_head (fs : ℕ) (xs : List ℝ) (h1 : 1 ≤ fs) (hlen : fs ≤ xs.length) :
    (fadeIn fs xs).head? = some 0 := by
  have hL : 0 < (fadeIn fs xs).length := by rw [length_fadeIn]; omega
  rw [List.head?_eq_getElem?, List.getElem?_eq_getElem hL]
  congr 1
  unfold fadeIn
  have hzlen : (List.zipWith (· * ·) (xs.take fs) (linspace 0 1 fs)).length = fs := by
    rw [List.length_zipWith, length_linspace, List.length_take]
    omega
  rw [List.getElem_append_left (by omega)]
  rw [List.getElem_zipWith, getElem_linspace]
  norm_num

lemma fadeOut_last (fs : ℕ) (xs : List ℝ) (h2 : 2 ≤ fs) (hlen : fs ≤ xs.length) :
    (fadeOut fs xs).getLast? = some 0 := by
  have hBlen : (List.zipWith (· * ·) (xs.drop (xs.length - fs))
      (linspace 1 0 fs)).length = fs := by
    rw [List.length_zipWith, length_linspace, List.length_drop]
    omega
  have hBne : List.zipWith (· * ·) (xs.drop (xs.length - fs))
      (linspace 1 0 fs) ≠ [] := by
    intro hc
    rw [hc] at hBlen
    simp at hBlen
    omega
  unfold fadeOut
  rw [List.getLast?_append_of_ne_nil _ hBne]
  have hidx : fs - 1 < (List.zipWith (· * ·) (xs.drop (xs.length - fs))
      (linspace 1 0 fs)).length := by
    rw [hBlen]; omega
  rw [List.getLast?_eq_getElem?, hBlen, List.getElem?_eq_getElem hidx]
  congr 1
  rw [List.getElem_zipWith, getElem_linspace]
  have hcast : ((fs - 1 : ℕ) : ℝ) = (fs : ℝ) - 1 := by
    rw [Nat.cast_sub (by omega : 1 ≤ fs)]
    norm_num
  rw [hcast]
  have hne : (fs : ℝ) - 1 ≠ 0 := by
    have : (2 : ℝ) ≤ (fs : ℝ) := by exact_mod_cast h2
    intro hc
    linarith
  rw [mul_div_assoc, div_self hne]
  norm_num

/-- C9 (amended): fade shaping is applied after normalization only when
`fadeSamples < totalSampleCount` (otherwise the buffer is exactly the
normalized accumulation, unshaped); whenever the fade region exists
(`fadeSamples ≥ 1`) and the buffer has length ≥ 2·fadeSamples, the first
sample is exactly 0, and the last sample is exactly 0 provided
`fadeSamples ≥ 2` — a one-sample fade-out multiplies the last sample by
`np.linspace(1, 0, 1) = [1]` and leaves it unchanged, so the claim's bound
must exclude `fadeSamples = 1`. -/
theorem fade_endpoints (sample_rate : ℕ) (amps : List ℝ) (f d : ℝ) (b : List ℝ)
    (h : generate_tone sample_rate amps f d = some b) :
    (¬ fadeSamplesOf sample_rate < b.length →
      b = normalize (rawTone sample_rate amps f d)) ∧
      (1 ≤ fadeSamplesOf sample_rate → 2 * fadeSamplesOf sample_rate ≤ b.length →
        b.head? = some 0) ∧
      (2 ≤ fadeSamplesOf sample_rate → 2 * fadeSamplesOf sample_rate ≤ b.length →
        b.getLast? = some 0) := by
  have hblen : b.length = sampleCount sample_rate d := generate_tone_some_length h
  have hnlen : (normalize (rawTone sample_rate amps f d)).length =
      sampleCount sample_rate d := by
    rw [length_normalize, length_rawTone]
  unfold generate_tone at h
  split at h
  · cases h
  · split at h
    · cases h
    · split at h
      · rename_i hraw0 hfs0 hlt
        cases h
        refine ⟨?_, ?_, ?_⟩
        · intro hn
          exact absurd (by rw [length_fadeOut, length_fadeIn]; exact hlt) hn
        · intro h1 _
          have hfle : fadeSamplesOf sample_rate ≤
              (fadeIn (fadeSamplesOf sample_rate)
                (normalize (rawTone sample_rate amps f d))).length := by
            rw [length_fadeIn]
            omega
          have hhead := fadeIn_head (fadeSamplesOf sample_rate)
            (normalize (rawTone sample_rate amps f d)) h1 (by omega)
          rw [List.head?_eq_getElem?] at hhead ⊢
          have h0in : 0 < (fadeIn (fadeSamplesOf sample_rate)
              (normalize (rawTone sample_rate amps f d))).length := by
            rw [length_fadeIn]
            omega
          have h0out : 0 < (fadeOut (fadeSamplesOf sample_rate)
              (fadeIn (fadeSamplesOf sample_rate)
                (normalize (rawTone sample_rate amps f d)))).length := by
            rw [length_fadeOut]
            exact h0in
          rw [List.getElem?_eq_getElem h0in] at hhead
          rw [List.getElem?_eq_getElem h0out]
          rw [← hhead]
          congr 1
          unfold fadeOut
          have htl : ((fadeIn (fadeSamplesOf sample_rate)
              (normalize (rawTone sample_rate amps f d))).take
                ((fadeIn (fadeSamplesOf sample_rate)
                  (normalize (rawTone sample_rate amps f d))).length -
                    fadeSamplesOf sample_rate)).length =
              (fadeIn (fadeSamplesOf sample_rate)
                (normalize (rawTone sample_rate amps f d))).length -
                  fadeSamplesOf sample_rate := by
            rw [List.length_take]
            omega
          rw [List.getElem_append_left (by rw [htl, length_fadeIn]; omega)]
          rw [List.getElem_take]
        · intro h2 _
          have hlast := fadeOut_last (fadeSamplesOf sample_rate)
            (fadeIn (fadeSamplesOf sample_rate)
              (normalize (rawTone sample_rate amps f d))) h2
            (by rw [length_fadeIn]; omega)
          exact hlast
      · rename_i hraw0 hfs0 hnlt
        cases h
        refine ⟨fun _ => rfl, ?_, ?_⟩
        · intro h1 hlen2
          exact absurd (by omega : fadeSamplesOf sample_rate <
            (normalize (rawTone sample_rate amps f d)).length) hnlt
        · intro h2 hlen2
          exact absurd (by omega : fadeSamplesOf sample_rate <
            (normalize (rawTone sample_rate amps f d)).length) hnlt

lemma harmSum_single (f t : ℝ) : harmSum [1] f t = Real.sin (2 * Real.pi * f * t) := by
  unfold harmSum
  rw [show List.enum [(1 : ℝ)] = [(0, 1)] from rfl]
  simp only [List.map_cons, List.map_nil, List.sum_cons, List.sum_nil]
  norm_num

/-- Concrete evaluation shared by the C9 statements: at sample rate 20 Hz,
frequency 5 Hz, duration 0.2 s and the default timbre, the sample grid is
`t = n/20`, the sines are `sin(n·π/2) = 0, 1, 0, -1`, the peak is already 1,
and the one-sample fades multiply the first sample by `linspace(0,1,1) = [0]`
(already 0) and the last by `linspace(1,0,1) = [1]`, leaving `-1`. -/
lemma generate_tone_20_eval : generate_tone 20 [1] 5 (1 / 5) = some [0, 1, 0, -1] := by
  have hN : sampleCount 20 (1 / 5) = 4 := by
    unfold sampleCount
    rw [show ((20 : ℕ) : ℝ) * (1 / 5) = 4 by norm_num]
    rw [Nat.floor_eq_iff (by norm_num)]
    norm_num
  have hraw : rawTone 20 [1] 5 (1 / 5) = [0, 1, 0, -1] := by
    unfold rawTone
    rw [hN, show List.range 4 = [0, 1, 2, 3] from rfl]
    simp only [List.map_cons, List.map_nil]
    rw [harmSum_single, harmSum_single, harmSum_single, harmSum_single]
    rw [show 2 * Real.pi * 5 * (((0 : ℕ) : ℝ) * (1 / 5) / ((4 : ℕ) : ℝ)) = 0 by
      push_cast; ring]
    rw [show 2 * Real.pi * 5 * (((1 : ℕ) : ℝ) * (1 / 5) / ((4 : ℕ) : ℝ)) = Real.pi / 2 by
      push_cast; ring]
    rw [show 2 * Real.pi * 5 * (((2 : ℕ) : ℝ) * (1 / 5) / ((4 : ℕ) : ℝ)) = Real.pi by
      push_cast; ring]
    rw [show 2 * Real.pi * 5 * (((3 : ℕ) : ℝ) * (1 / 5) / ((4 : ℕ) : ℝ)) =
        Real.pi + Real.pi / 2 by push_cast; ring]
    rw [Real.sin_zero, Real.sin_pi_div_two, Real.sin_pi]
    rw [Real.sin_add, Real.sin_pi, Real.cos_pi, Real.sin_pi_div_two, Real.cos_pi_div_two]
    norm_num
  have hpeak : peak [0, 1, 0, (-1 : ℝ)] = 1 := by
    unfold peak
    simp only [List.foldl_cons, List.foldl_nil]
    norm_num [max_def]
  have hnorm : normalize [0, 1, 0, (-1 : ℝ)] = [0, 1, 0, -1] := by
    unfold normalize
    rw [hpeak, if_pos (by norm_num : (0 : ℝ) < 1)]
    norm_num
  have hfs : fadeSamplesOf 20 = 1 := by decide
  rw [generate_tone_eq_some_fade (by rw [hfs]; omega) (by rw [hfs, hN]; omega)]
  rw [hraw, hnorm, hfs]
  have hin : fadeIn 1 [0, 1, 0, (-1 : ℝ)] = [0, 1, 0, -1] := by
    unfold fadeIn
    rw [linspace_singleton]
    rw [show List.take 1 [0, 1, 0, (-1 : ℝ)] = [0] from rfl,
      show List.drop 1 [0, 1, 0, (-1 : ℝ)] = [1, 0, -1] from rfl]
    rw [show List.zipWith (· * ·) [(0 : ℝ)] [(0 : ℝ)] = [0 * 0] from rfl]
    norm_num
  rw [hin]
  unfold fadeOut
  rw [linspace_singleton]
  rw [show ([0, 1, 0, (-1 : ℝ)]).length - 1 = 3 from rfl]
  rw [show List.take 3 [0, 1, 0, (-1 : ℝ)] = [0, 1, 0] from rfl,
    show List.drop 3 [0, 1, 0, (-1 : ℝ)] = [-1] from rfl]
  rw [show List.zipWith (· * ·) [(-1 : ℝ)] [(1 : ℝ)] = [-1 * 1] from rfl]
  norm_num

/-- C9 (counterexample): the claim says every synthesized buffer of length ≥
2·fadeSamples ends with the sample 0, but at sample rate 20 (`fadeSamples =
1`) the buffer for frequency 5 Hz, duration 0.2 s has 4 ≥ 2 samples and ends
with -1: `np.linspace(1, 0, 1) = [1]` leaves the last sample unscaled. -/
theorem fade_cx :
    generate_tone 20 [1] 5 (1 / 5) = some [0, 1, 0, -1] ∧
      2 * fadeSamplesOf 20 ≤ ([0, 1, 0, (-1 : ℝ)]).length ∧
      ([0, 1, 0, (-1 : ℝ)]).getLast? ≠ some 0 := by
  refine ⟨generate_tone_20_eval, by decide, ?_⟩
  rw [show ([0, 1, 0, (-1 : ℝ)]).getLast? = some (-1) from rfl]
  simp only [ne_eq, Option.some_inj]
  norm_num

/-- C9 (amended, witness): at sample rate 40 (`fadeSamples = 2`) the 4-sample
buffer for frequency 0 satisfies both endpoint conclusions. -/
theorem fade_endpoints_witness :
    generate_tone 40 [1] 0 (1 / 10) = some (List.replicate 4 0) ∧
      (List.replicate 4 (0 : ℝ)).head? = some 0 ∧
      (List.replicate 4 (0 : ℝ)).getLast? = some 0 := by
  have hN : sampleCount 40 (1 / 10) = 4 := by
    unfold sampleCount
    rw [show ((40 : ℕ) : ℝ) * (1 / 10) = 4 by norm_num]
    rw [Nat.floor_eq_iff (by norm_num)]
    norm_num
  have heval : generate_tone 40 [1] 0 (1 / 10) = some (List.replicate 4 0) := by
    have h := generate_tone_freq_zero 40 [1] (1 / 10) (by rw [hN]; omega) (by decide)
    rw [hN] at h
    exact h
  have h := fade_endpoints 40 [1] 0 (1 / 10) (List.replicate 4 0) heval
  refine ⟨heval, h.2.1 (by decide) (by decide), h.2.2 (by decide) (by decide)⟩

/-! ## C5: 16-bit PCM conversion at the file sink -/

lemma foldl_max_abs_le {xs : List ℝ} {c : ℝ} (h : ∀ x ∈ xs, |x| ≤ c) :
    ∀ a, a ≤ c → xs.foldl (fun m x => max m |x|) a ≤ c := by
  induction xs with
  | nil => intro a ha; simpa
  | cons y ys ih =>
    intro a ha
    exact ih (fun x hx => h x (List.mem_cons_of_mem y hx)) _
      (max_le ha (h y (List.mem_cons_self y ys)))

lemma peak_le {xs : List ℝ} {c : ℝ} (hc : 0 ≤ c) (h : ∀ x ∈ xs, |x| ≤ c) :
    peak xs ≤ c :=
  foldl_max_abs_le h 0 hc

lemma raw24_peak : peak (rawTone 24 [1] 1 1) = 1 := by
  have hN : sampleCount 24 1 = 24 := by
    unfold sampleCount
    rw [show ((24 : ℕ) : ℝ) * 1 = 24 by norm_num]
    rw [Nat.floor_eq_iff (by norm_num)]
    norm_num
  have hrawlen : (rawTone 24 [1] 1 1).length = 24 := by
    rw [length_rawTone, hN]
  have hupper : peak (rawTone 24 [1] 1 1) ≤ 1 := by
    apply peak_le (by norm_num)
    intro x hx
    unfold rawTone at hx
    rcases List.mem_map.mp hx with ⟨n, _, hn⟩
    rw [← hn, harmSum_single]
    exact Real.abs_sin_le_one _
  have hb : (6 : ℕ) < (rawTone 24 [1] 1 1).length := by omega
  have h6 : (rawTone 24 [1] 1 1).getD 6 0 = 1 := by
    rw [getD_rawTone 24 [1] 1 1 6 (by rw [hN]; omega)]
    rw [harmSum_single, hN]
    rw [show 2 * Real.pi * 1 * (((6 : ℕ) : ℝ) * 1 / ((24 : ℕ) : ℝ)) = Real.pi / 2 by
      push_cast; ring]
    exact Real.sin_pi_div_two
  rw [List.getD_eq_getElem _ _ hb] at h6
  have hmem : (1 : ℝ) ∈ rawTone 24 [1] 1 1 := by
    have hm := List.getElem_mem hb
    rw [h6] at hm
    exact hm
  have hlower := abs_le_peak hmem
  rw [abs_one] at hlower
  exact le_antisymm hupper hlower

/-- At sample rate 24, frequency 1 Hz, duration 1 s and the default timbre,
the synthesizer emits a buffer whose sample index 2 is `sin(π/6)/1 = 1/2`:
a concrete synthesizer-produced sample with a fractional scaled value. -/
lemma sample24_half :
    (generate_tone 24 [1] 1 1).elim False (fun b => b.getD 2 0 = 1 / 2) := by
  have hN : sampleCount 24 1 = 24 := by
    unfold sampleCount
    rw [show ((24 : ℕ) : ℝ) * 1 = 24 by norm_num]
    rw [Nat.floor_eq_iff (by norm_num)]
    norm_num
  have hrawlen : (rawTone 24 [1] 1 1).length = 24 := by
    rw [length_rawTone, hN]
  have hfs : fadeSamplesOf 24 = 1 := by decide
  rw [generate_tone_eq_some_fade (by rw [hfs]; omega) (by rw [hfs, hN]; omega), hfs]
  rw [show Option.elim (some (fadeOut 1 (fadeIn 1 (normalize (rawTone 24 [1] 1 1)))))
      False (fun b => b.getD 2 0 = 1 / 2) =
    ((fadeOut 1 (fadeIn 1 (normalize (rawTone 24 [1] 1 1)))).getD 2 0 = 1 / 2) from rfl]
  rw [getD_fadeOut_of_lt 1 2 _ (by rw [length_fadeIn, length_normalize, hrawlen]; omega)]
  rw [getD_fadeIn_of_le 1 2 _ (by omega) (by rw [length_normalize, hrawlen]; omega)]
  rw [getD_normalize_pos (by rw [raw24_peak]; norm_num) (by rw [hrawlen]; omega)]
  rw [getD_rawTone 24 [1] 1 1 2 (by rw [hN]; omega)]
  rw [harmSum_single, hN, raw24_peak]
  rw [show 2 * Real.pi * 1 * (((2 : ℕ) : ℝ) * 1 / ((24 : ℕ) : ℝ)) = Real.pi / 6 by
    push_cast; ring]
  rw [Real.sin_pi_div_six]
  norm_num

/-- C5 (counterexample): the sample `1/2` is produced by the synthesizer
(index 2 of the buffer for 1 Hz at sample rate 24); the file sink converts it
with `astype(np.int16)`, i.e. truncation toward zero: `int(16383.5) = 16383`,
whereas the claimed round-and-clamp conversion gives `round(16383.5) =
16384` — the two differ bit-for-bit. -/
theorem pcm_cx :
    (generate_tone 24 [1] 1 1).elim False (fun b => b.getD 2 0 = 1 / 2) ∧
      pcmOfSample (1 / 2) = 16383 ∧
      pcmSpecOfSample (1 / 2) = 16384 ∧ (16383 : ℤ) ≠ 16384 := by
  refine ⟨sample24_half, ?_, ?_, by decide⟩
  · unfold pcmOfSample
    rw [if_pos (by norm_num : (0 : ℝ) ≤ 1 / 2)]
    rw [show (1 / 2 : ℝ) * 32767 = 32767 / 2 by norm_num]
    norm_num
  · unfold pcmSpecOfSample
    rw [show (1 / 2 : ℝ) * 32767 = 32767 / 2 by norm_num]
    rw [round_eq]
    norm_num

/-- C5 (amended): the file sink converts a sample `x` by truncating
`x * 32767` toward zero, with no rounding and no clamping; every sample the
synthesizer produces lies in `[-1, 1]`, where the truncated value already
lies in the signed 16-bit range `[-32767, 32767]`, so clamping would be a
no-op and the int16 cast never wraps. -/
theorem pcm_truncation_range (x : ℝ) (h : |x| ≤ 1) :
    -32767 ≤ pcmOfSample x ∧ pcmOfSample x ≤ 32767 := by
  rcases abs_le.mp h with ⟨hlo, hhi⟩
  unfold pcmOfSample
  split
  · rename_i hx
    constructor
    · have : (0 : ℤ) ≤ ⌊x * 32767⌋ := by
        apply Int.floor_nonneg.mpr
        positivity
      omega
    · have : ⌊x * 32767⌋ ≤ ⌊(32767 : ℝ)⌋ := by
        apply Int.floor_le_floor
        nlinarith
      rw [show ⌊(32767 : ℝ)⌋ = 32767 by norm_num] at this
      exact this
  · rename_i hx
    push_neg at hx
    constructor
    · have : ⌈((-32767 : ℤ) : ℝ)⌉ ≤ ⌈x * 32767⌉ := by
        apply Int.ceil_le_ceil
        push_cast
        nlinarith
      rw [Int.ceil_intCast] at this
      exact this
    · have : ⌈x * 32767⌉ ≤ 0 := by
        apply Int.ceil_le.mpr
        push_cast
        nlinarith
      omega

/-- C5 (amended, witness): the sample `1/2` satisfies the range bound. -/
theorem pcm_truncation_range_witness :
    |(1 / 2 : ℝ)| ≤ 1 ∧
      -32767 ≤ pcmOfSample (1 / 2) ∧ pcmOfSample (1 / 2) ≤ 32767 := by
  have hx : |(1 / 2 : ℝ)| ≤ 1 := by
    rw [abs_of_pos (by norm_num : (0 : ℝ) < 1 / 2)]
    norm_num
  exact ⟨hx, pcm_truncation_range (1 / 2) hx⟩

/-! ## C2: audio file sink payload -/

lemma sampleCount_44100_half : sampleCount 44100 (1 / 2) = 22050 := by
  unfold sampleCount
  rw [show ((44100 : ℕ) : ℝ) * (1 / 2) = 22050 by norm_num]
  rw [Nat.floor_eq_iff (by norm_num)]
  norm_num

lemma fadeSamplesOf_44100 : fadeSamplesOf 44100 = 2205 := by decide

lemma parse_104 :
    MusicNote.parse ⟨26163 / 100, 1 / 2⟩ ['1', '.', '0', '4'] =
      .ok (resolveFreq (26163 / 100) (0 * 12 + semitoneOf ['1']), (1 / 2 : ℝ)) := by
  have hok : parseCore ['1', '.', '0', '4'] = .ok ⟨['1'], 0, 4⟩ := by
    simp [parseCore, parseFloat, splitOnDot, colonToDot, stripMarker, digitsVal, NOTE_TO_SEMITONE]
  have h := parse_of_parseCore_ok ⟨26163 / 100, 1 / 2⟩ hok
  rw [h]
  congr 1
  rw [Prod.ext_iff]
  constructor
  · rfl
  · show (1 / 2 : ℝ) * (4 / ((4 : ℚ) : ℝ)) = 1 / 2
    push_cast
    norm_num

lemma rcp_two_tokens :
    (rcp_to_wav_payload (26163 / 100) (1 / 2) 44100 [1]
      [['1', '.', '0', '4'], ['2', '.', '0', '4']]).map List.length = some 44100 := by
  have hok2 : parseCore ['2', '.', '0', '4'] = .ok ⟨['2'], 0, 4⟩ := by
    simp [parseCore, parseFloat, splitOnDot, colonToDot, stripMarker, digitsVal, NOTE_TO_SEMITONE]
  have hparse2 : MusicNote.parse ⟨26163 / 100, 1 / 2⟩ ['2', '.', '0', '4'] =
      .ok (resolveFreq (26163 / 100) (0 * 12 + semitoneOf ['2']), (1 / 2 : ℝ)) := by
    have h := parse_of_parseCore_ok ⟨26163 / 100, 1 / 2⟩ hok2
    rw [h]
    congr 1
    rw [Prod.ext_iff]
    constructor
    · rfl
    · show (1 / 2 : ℝ) * (4 / ((4 : ℚ) : ℝ)) = 1 / 2
      push_cast
      norm_num
  have hfs : fadeSamplesOf 44100 ≠ 0 := by rw [fadeSamplesOf_44100]; omega
  have hlt : fadeSamplesOf 44100 < sampleCount 44100 (1 / 2) := by
    rw [fadeSamplesOf_44100, sampleCount_44100_half]
    omega
  have g1 := @generate_tone_eq_some_fade 44100 [1]
    (resolveFreq (26163 / 100) (0 * 12 + semitoneOf ['1'])) (1 / 2) hfs hlt
  have g2 := @generate_tone_eq_some_fade 44100 [1]
    (resolveFreq (26163 / 100) (0 * 12 + semitoneOf ['2'])) (1 / 2) hfs hlt
  have hlen1 : (fadeOut (fadeSamplesOf 44100) (fadeIn (fadeSamplesOf 44100)
      (normalize (rawTone 44100 [1]
        (resolveFreq (26163 / 100) (0 * 12 + semitoneOf ['1'])) (1 / 2))))).length = 22050 := by
    rw [length_fadeOut, length_fadeIn, length_normalize, length_rawTone, sampleCount_44100_half]
  have hlen2 : (fadeOut (fadeSamplesOf 44100) (fadeIn (fadeSamplesOf 44100)
      (normalize (rawTone 44100 [1]
        (resolveFreq (26163 / 100) (0 * 12 + semitoneOf ['2'])) (1 / 2))))).length = 22050 := by
    rw [length_fadeOut, length_fadeIn, length_normalize, length_rawTone, sampleCount_44100_half]
  have step2 : rcpTones (26163 / 100) (1 / 2) 44100 [1] [['2', '.', '0', '4']] =
      some [fadeOut (fadeSamplesOf 44100) (fadeIn (fadeSamplesOf 44100)
        (normalize (rawTone 44100 [1]
          (resolveFreq (26163 / 100) (0 * 12 + semitoneOf ['2'])) (1 / 2))))] := by
    unfold rcpTones
    rw [hparse2]
    simp only [Except.toOption, Option.bind]
    rw [g2]
    simp only [Option.bind]
    rfl
  have step1 : rcpTones (26163 / 100) (1 / 2) 44100 [1]
      [['1', '.', '0', '4'], ['2', '.', '0', '4']] =
      some [fadeOut (fadeSamplesOf 44100) (fadeIn (fadeSamplesOf 44100)
        (normalize (rawTone 44100 [1]
          (resolveFreq (26163 / 100) (0 * 12 + semitoneOf ['1'])) (1 / 2)))),
        fadeOut (fadeSamplesOf 44100) (fadeIn (fadeSamplesOf 44100)
        (normalize (rawTone 44100 [1]
          (resolveFreq (26163 / 100) (0 * 12 + semitoneOf ['2'])) (1 / 2))))] := by
    unfold rcpTones
    rw [parse_104]
    simp only [Except.toOption, Option.bind]
    rw [g1]
    simp only [Option.bind]
    rw [step2]
    rfl
  unfold rcp_to_wav_payload
  rw [step1]
  rw [Option.map_map]
  rw [show (List.length ∘ fun ts : List (List ℝ) =>
      (List.map (fun tone => List.map pcmOfSample tone) ts).flatten) =
    (fun ts : List (List ℝ) =>
      (List.map (fun tone => List.map pcmOfSample tone) ts).flatten.length) from rfl]
  rw [Option.map_some']
  rw [Option.some_inj]
  simp only [List.map_cons, List.map_nil, List.flatten_cons, List.flatten_nil,
    List.append_nil]
  rw [List.length_append, List.length_map, List.length_map, hlen1, hlen2]


/-- C2 (counterexample): the claim says rendering `"1.04 2.04"` at 44100 Hz
with default tuning gives 22050 + 22050 + 2·2205 = 48510 samples (±1), but
`rcp_to_wav` appends only the tone buffers — it writes no inter-note
silence — so the payload has 44100 samples, far outside the claimed range. -/
theorem file_payload_cx :
    (rcp_to_wav_payload (26163 / 100) (1 / 2) 44100 [1]
        [['1', '.', '0', '4'], ['2', '.', '0', '4']]).map List.length = some 44100 ∧
      ¬ ((48510 - 1 : ℤ) ≤ 44100 ∧ (44100 : ℤ) ≤ 48510 + 1) :=
  ⟨rcp_two_tokens, by decide⟩

/-- C2 (amended): the file payload is the in-order concatenation of the
per-note tone buffers only: `rcp_to_wav` adds no inter-note silence (the
50 ms ≙ 2205-sample gap at 44100 Hz exists only in the live playback path
`play_note`).  Rendering `"1.04 2.04"` at 44100 Hz with default tuning
yields exactly 22050 + 22050 samples. -/
theorem file_payload_concat :
    (rcp_to_wav_payload (26163 / 100) (1 / 2) 44100 [1]
        [['1', '.', '0', '4'], ['2', '.', '0', '4']]).map List.length =
      some (22050 + 22050) ∧
      playNoteSilenceLen 44100 = 2205 := by
  constructor
  · rw [rcp_two_tokens]
  · unfold playNoteSilenceLen
    rw [show ((44100 : ℕ) : ℝ) * (5 / 100) = 2205 by norm_num]
    rw [Nat.floor_eq_iff (by norm_num)]
    norm_num

/-! ## C1: the degree-0 "rest" is not silent -/

lemma resolveFreq_sentinel : resolveFreq (26163 / 100) (-240) = 26163 / 104857600 := by
  unfold resolveFreq
  rw [show (((-240 : ℤ) : ℝ)) / 12 = -((20 : ℕ) : ℝ) by push_cast; norm_num]
  rw [Real.rpow_neg (by norm_num : (0 : ℝ) ≤ 2), Real.rpow_natCast]
  norm_num

lemma sampleCount_44100_two : sampleCount 44100 2 = 88200 := by
  unfold sampleCount
  rw [show ((44100 : ℕ) : ℝ) * 2 = 88200 by norm_num]
  rw [Nat.floor_eq_iff (by norm_num)]
  norm_num

lemma sentinel_sin_pos : 0 < Real.sin (2 * Real.pi * (26163 / 104857600) * 1) := by
  rw [show 2 * Real.pi * (26163 / 104857600 : ℝ) * 1 = Real.pi * (26163 / 52428800) by ring]
  apply Real.sin_pos_of_pos_of_lt_pi
  · positivity
  · nlinarith [Real.pi_pos]

lemma rest_sample_ne_zero :
    (generate_tone 44100 [1] (resolveFreq (26163 / 100) (-240)) 2).elim False
      (fun b => b.getD 44100 0 ≠ 0) := by
  rw [resolveFreq_sentinel]
  have hN := sampleCount_44100_two
  have hfsv : fadeSamplesOf 44100 = 2205 := fadeSamplesOf_44100
  have hrawlen : (rawTone 44100 [1] (26163 / 104857600) 2).length = 88200 := by
    rw [length_rawTone, hN]
  have ht : ((44100 : ℕ) : ℝ) * 2 / ((sampleCount 44100 2 : ℕ) : ℝ) = 1 := by
    rw [hN]
    push_cast
    norm_num
  have h44 : (rawTone 44100 [1] (26163 / 104857600) 2).getD 44100 0 =
      Real.sin (2 * Real.pi * (26163 / 104857600) * 1) := by
    rw [getD_rawTone 44100 [1] (26163 / 104857600) 2 44100 (by rw [hN]; omega)]
    rw [harmSum_single, ht]
  have hppos : 0 < peak (rawTone 44100 [1] (26163 / 104857600) 2) := by
    have hb : (44100 : ℕ) < (rawTone 44100 [1] (26163 / 104857600) 2).length := by
      omega
    rw [List.getD_eq_getElem _ _ hb] at h44
    have hmem : Real.sin (2 * Real.pi * (26163 / 104857600) * 1) ∈
        rawTone 44100 [1] (26163 / 104857600) 2 := by
      have hm := List.getElem_mem hb
      rw [h44] at hm
      exact hm
    have habs := abs_le_peak hmem
    have hle := le_trans (le_abs_self _) habs
    linarith [sentinel_sin_pos]
  rw [generate_tone_eq_some_fade (by rw [hfsv]; omega) (by rw [hfsv, hN]; omega), hfsv]
  rw [show Option.elim (some (fadeOut 2205 (fadeIn 2205 (normalize
      (rawTone 44100 [1] (26163 / 104857600) 2))))) False
      (fun b => b.getD 44100 0 ≠ 0) =
    ((fadeOut 2205 (fadeIn 2205 (normalize
      (rawTone 44100 [1] (26163 / 104857600) 2)))).getD 44100 0 ≠ 0) from rfl]
  rw [getD_fadeOut_of_lt 2205 44100 _
    (by rw [length_fadeIn, length_normalize, hrawlen]; omega)]
  rw [getD_fadeIn_of_le 2205 44100 _ (by omega) (by rw [length_normalize, hrawlen]; omega)]
  rw [getD_normalize_pos hppos (by rw [hrawlen]; omega)]
  rw [getD_rawTone 44100 [1] (26163 / 104857600) 2 44100 (by rw [hN]; omega)]
  rw [harmSum_single, ht]
  exact div_ne_zero (ne_of_gt sentinel_sin_pos) (ne_of_gt hppos)

/-- C1 (counterexample): the claim says every degree-'0' token yields pure
silence (all samples 0) with the synthesis path not run — but parsing
`"0.01"` at the default tuning resolves through the sentinel to frequency
`261.63 * 2^(-20)` Hz and duration 2 s, `generate_tone` runs, and the middle
sample (index 44100 of 88200) of the emitted buffer is
`sin(2π·f₀·1)/peak ≠ 0`: peak normalization rescales the tiny near-DC
waveform instead of leaving silence. -/
theorem rest_not_silence_cx :
    MusicNote.parse ⟨26163 / 100, 1 / 2⟩ ['0', '.', '0', '1'] =
      .ok (resolveFreq (26163 / 100) (-240), 2) ∧
      (generate_tone 44100 [1] (resolveFreq (26163 / 100) (-240)) 2).elim False
        (fun b => b.getD 44100 0 ≠ 0) := by
  constructor
  · have hok : parseCore ['0', '.', '0', '1'] = .ok ⟨['0'], 0, 1⟩ := by
      simp [parseCore, parseFloat, splitOnDot, colonToDot, stripMarker, digitsVal,
        NOTE_TO_SEMITONE]
    have h := parse_of_parseCore_ok ⟨26163 / 100, 1 / 2⟩ hok
    rw [h]
    congr 1
    rw [Prod.ext_iff]
    constructor
    · show resolveFreq (26163 / 100) ((0 : ℤ) * 12 + semitoneOf ['0']) =
        resolveFreq (26163 / 100) (-240)
      congr 1
    · show (1 / 2 : ℝ) * (4 / ((1 : ℚ) : ℝ)) = 2
      push_cast
      norm_num
  · exact rest_sample_ne_zero

end SpringShadow
